import Mathlib

/-!
Verification development for the group state synchronization and
zero-knowledge credential subsystem of `pkg/signalmeow/groups.go`.

The cryptographic collaborator (libsignalgo) and the network transport are
out of scope of the source under study; they are modelled as an opaque
oracle structure (`Crypto`) and as explicit fetch-outcome parameters, so
every function of `groups.go` becomes a pure Lean function of its inputs,
the oracle and the relevant cache state.
-/

namespace SignalGroups

/-! ## Base64 codec (`encoding/base64` StdEncoding, used by the master-key codec) -/

def b64Chars : List Char :=
  ['A','B','C','D','E','F','G','H','I','J','K','L','M',
   'N','O','P','Q','R','S','T','U','V','W','X','Y','Z',
   'a','b','c','d','e','f','g','h','i','j','k','l','m',
   'n','o','p','q','r','s','t','u','v','w','x','y','z',
   '0','1','2','3','4','5','6','7','8','9','+','/']

def b64Char (n : Nat) : Char := b64Chars.getD n 'A'

def b64IndexAux (ch : Char) : List Char → Nat → Option Nat
  | [], _ => none
  | c :: rest, i => if c = ch then some i else b64IndexAux ch rest (i + 1)

def b64Index (ch : Char) : Option Nat := b64IndexAux ch b64Chars 0

/-- Standard base64 encoding of a byte list (each input entry < 256),
processing one 3-byte group at a time, padding the final partial group
with `=` exactly as Go's `base64.StdEncoding.EncodeToString`. -/
def base64EncodeList : List Nat → List Char
  | [] => []
  | [b1] =>
    let n := b1 * 65536
    [b64Char (n / 262144), b64Char (n / 4096 % 64), '=', '=']
  | [b1, b2] =>
    let n := b1 * 65536 + b2 * 256
    [b64Char (n / 262144), b64Char (n / 4096 % 64), b64Char (n / 64 % 64), '=']
  | b1 :: b2 :: b3 :: rest =>
    let n := b1 * 65536 + b2 * 256 + b3
    b64Char (n / 262144) :: b64Char (n / 4096 % 64) :: b64Char (n / 64 % 64) ::
      b64Char (n % 64) :: base64EncodeList rest

/-- Standard base64 decoding (`base64.StdEncoding.DecodeString`): input must
consist of 4-character quanta, `=` padding may only close the final quantum,
any character outside the alphabet fails.  `none` models a decode error. -/
def base64DecodeList : List Char → Option (List Nat)
  | [] => some []
  | c1 :: c2 :: c3 :: c4 :: rest =>
    if c3 = '=' then
      if c4 = '=' ∧ rest = [] then
        match b64Index c1, b64Index c2 with
        | some v1, some v2 => some [v1 * 4 + v2 / 16]
        | _, _ => none
      else none
    else if c4 = '=' then
      if rest = [] then
        match b64Index c1, b64Index c2, b64Index c3 with
        | some v1, some v2, some v3 =>
          some [v1 * 4 + v2 / 16, v2 % 16 * 16 + v3 / 4]
        | _, _, _ => none
      else none
    else
      match b64Index c1, b64Index c2, b64Index c3, b64Index c4, base64DecodeList rest with
      | some v1, some v2, some v3, some v4, some bytes =>
        some ((v1 * 4 + v2 / 16) :: (v2 % 16 * 16 + v3 / 4) :: (v3 % 4 * 64 + v4) :: bytes)
      | _, _, _, _, _ => none
  | _ => none

theorem b64Index_b64Char : ∀ v : Nat, v < 64 → b64Index (b64Char v) = some v := by decide

theorem b64Char_ne_pad : ∀ v : Nat, v < 64 → b64Char v ≠ '=' := by decide

theorem base64_roundtrip :
    ∀ l : List Nat, (∀ b ∈ l, b < 256) → base64DecodeList (base64EncodeList l) = some l
  | [], _ => rfl
  | [b1], h => by
    have hb1 : b1 < 256 := h b1 (by simp)
    have h1 := b64Index_b64Char (b1 * 65536 / 262144) (by omega)
    have h2 := b64Index_b64Char (b1 * 65536 / 4096 % 64) (by omega)
    simp only [base64EncodeList, base64DecodeList, h1, h2, reduceIte, and_self, reduceCtorEq]
    simp only [Option.some.injEq, List.cons.injEq, and_true]
    omega
  | [b1, b2], h => by
    have hb1 : b1 < 256 := h b1 (by simp)
    have hb2 : b2 < 256 := h b2 (by simp)
    have h1 := b64Index_b64Char ((b1 * 65536 + b2 * 256) / 262144) (by omega)
    have h2 := b64Index_b64Char ((b1 * 65536 + b2 * 256) / 4096 % 64) (by omega)
    have h3 := b64Index_b64Char ((b1 * 65536 + b2 * 256) / 64 % 64) (by omega)
    have hne3 := b64Char_ne_pad ((b1 * 65536 + b2 * 256) / 64 % 64) (by omega)
    simp only [base64EncodeList, base64DecodeList, h1, h2, h3,
      if_neg hne3, reduceIte, and_self]
    simp only [Option.some.injEq, List.cons.injEq, and_true]
    omega
  | b1 :: b2 :: b3 :: rest, h => by
    have hb1 : b1 < 256 := h b1 (by simp)
    have hb2 : b2 < 256 := h b2 (by simp)
    have hb3 : b3 < 256 := h b3 (by simp)
    have ih := base64_roundtrip rest (fun b hb => h b (by simp [hb]))
    have h1 := b64Index_b64Char ((b1 * 65536 + b2 * 256 + b3) / 262144) (by omega)
    have h2 := b64Index_b64Char ((b1 * 65536 + b2 * 256 + b3) / 4096 % 64) (by omega)
    have h3 := b64Index_b64Char ((b1 * 65536 + b2 * 256 + b3) / 64 % 64) (by omega)
    have h4 := b64Index_b64Char ((b1 * 65536 + b2 * 256 + b3) % 64) (by omega)
    have hne3 := b64Char_ne_pad ((b1 * 65536 + b2 * 256 + b3) / 64 % 64) (by omega)
    have hne4 := b64Char_ne_pad ((b1 * 65536 + b2 * 256 + b3) % 64) (by omega)
    simp only [base64EncodeList, base64DecodeList, h1, h2, h3, h4, ih,
      if_neg hne3, if_neg hne4]
    simp only [Option.some.injEq, List.cons.injEq, and_true]
    omega

/-! ## Data model

Types mirror `groups.go` and the pieces of `libsignalgo` / `signalpb` /
`types` that it consumes.  Byte slices become `List Nat` (entries < 256 where
it matters), opaque crypto handles become `Nat`, `uint32` fields become `Nat`,
`int32` / `int64` fields become `Int`. -/

abbrev Bytes := List Nat

/-- `types.SerializedGroupMasterKey`: a base64-encoded string form of the key. -/
abbrev SerializedGroupMasterKey := String

/-- `types.GroupIdentifier`: base64-encoded string form of the derived identifier. -/
abbrev GroupIdentifier := String

/-- `libsignalgo.GroupMasterKey`: raw key bytes. -/
abbrev GroupMasterKey := Bytes

/-- Opaque handle for `libsignalgo.GroupSecretParams`. -/
abbrev GroupSecretParams := Nat

/-- `libsignalgo.GroupPublicParams`, used only as raw bytes (hex-encoded into
the auth username, or fed to the group-identifier derivation). -/
abbrev GroupPublicParams := Bytes

/-- `uuid.UUID` (ACI / PNI / decrypted member id), modelled opaquely. -/
abbrev UUID := Nat

/-- Opaque handle for `libsignalgo.ProfileKey`. -/
abbrev ProfileKey := Nat

abbrev AuthCredentialWithPniResponse := Nat

abbrev AuthCredentialWithPni := Nat

abbrev ServerPublicParams := Nat

abbrev Randomness := Nat

/-- `type GroupMemberRole int32` from `groups.go`. -/
abbrev GroupMemberRole := Int

def GroupMember_UNKNOWN : GroupMemberRole := 0

def GroupMember_DEFAULT : GroupMemberRole := 1

def GroupMember_ADMINISTRATOR : GroupMemberRole := 2

structure GroupMember where
  userID : UUID
  role : GroupMemberRole
  profileKey : ProfileKey
  joinedAtRevision : Nat
deriving DecidableEq

structure Group where
  groupMasterKey : SerializedGroupMasterKey
  groupIdentifier : GroupIdentifier
  title : String
  avatarPath : String
  members : List GroupMember
  description : String
  announcementsOnly : Bool
  revision : Nat
  disappearingMessagesDuration : Nat
deriving DecidableEq

structure GroupAuth where
  username : String
  password : String
deriving DecidableEq

/-- `signalpb.GroupAttributeBlob` after `proto.Unmarshal`: the oneof content
is flattened into the proto3 getters' view (`GetTitle` etc. return the zero
value when the field is absent, which the unmarshalling oracle supplies). -/
structure GroupAttributeBlob where
  title : String
  description : String
  avatar : Bytes
  disappearingMessagesDuration : Nat
deriving DecidableEq

/-- `signalpb.Member`: the fields of the encrypted member record consumed by
`decryptGroup` (`UserId` and `ProfileKey` are ciphertext bytes, `Role` the raw
protobuf enum number). -/
structure EncMember where
  userId : Bytes
  role : Int
  profileKey : Bytes
  joinedAtRevision : Nat
deriving DecidableEq

/-- `signalpb.Group`: the fields of the encrypted group record consumed by
`decryptGroup`.  A `nil` byte slice and an empty one behave identically in the
source (`!= nil && len > 0`), so both are the empty list; `nil` member
pointers are `none`. -/
structure EncGroup where
  title : Bytes
  description : Bytes
  disappearingMessagesTimer : Bytes
  avatar : String
  revision : Nat
  members : List (Option EncMember)
deriving DecidableEq

/-- `GroupCredential` (JSON element of the credential bundle): fields used by
`groups.go` are the opaque credential response and its redemption time in
epoch seconds. -/
structure GroupCredential where
  credential : Bytes
  redemptionTime : Int
deriving DecidableEq

/-- Modelled from the spec: the `GroupCredentials` JSON struct itself is
declared outside the visible source; per the spec it is a server-issued
bundle of day-keyed credential responses together with the account's own
identifiers, of which `groups.go` reads `.Credentials` and `.PNI`. -/
structure GroupCredentials where
  credentials : List GroupCredential
  pni : UUID
deriving DecidableEq

/-- Websocket response as consumed by `fetchNewGroupCreds`: a status code and
a body. -/
structure WSResponse where
  status : Nat
  body : Bytes
deriving DecidableEq

/-! ## Go map operations

Go map reads/writes/deletes on `map[types.GroupIdentifier]V`, modelled as
association lists where an insert shadows older entries and a delete removes
every entry for the key. -/

def mapGet {β : Type} : List (GroupIdentifier × β) → GroupIdentifier → Option β
  | [], _ => none
  | (k, v) :: rest, key => if k = key then some v else mapGet rest key

def mapSet {β : Type} (m : List (GroupIdentifier × β)) (key : GroupIdentifier) (v : β) :
    List (GroupIdentifier × β) :=
  (key, v) :: m

def mapDel {β : Type} (m : List (GroupIdentifier × β)) (key : GroupIdentifier) :
    List (GroupIdentifier × β) :=
  m.filter (fun p => p.1 ≠ key)

/-- The `GroupCache` struct: three parallel maps keyed by group identifier.
Timestamps are `Int` nanoseconds (Go `time.Time` compared via `time.Since`). -/
structure GroupCache where
  groups : List (GroupIdentifier × Group)
  lastFetched : List (GroupIdentifier × Int)
  activeCalls : List (GroupIdentifier × String)
deriving DecidableEq

/-- `initGroupCache` result on a fresh client: all three maps empty. -/
def emptyGroupCache : GroupCache :=
  { groups := [], lastFetched := [], activeCalls := [] }

/-! ## Crypto oracle

The libsignalgo operations consumed by `groups.go`, assumed correct and
deterministic (out of scope per the spec); each fallible FFI call returns
`Except String`. -/

structure Crypto where
  deriveGroupSecretParamsFromMasterKey : GroupMasterKey → Except String GroupSecretParams
  getPublicParams : GroupSecretParams → Except String GroupPublicParams
  getGroupIdentifier : GroupPublicParams → Except String Bytes
  decryptBlobWithPadding : GroupSecretParams → Bytes → Except String Bytes
  unmarshalGroupAttributeBlob : Bytes → Except String GroupAttributeBlob
  decryptUUID : GroupSecretParams → Bytes → Except String UUID
  decryptProfileKey : GroupSecretParams → Bytes → UUID → Except String ProfileKey
  newAuthCredentialWithPniResponse : Bytes → Except String AuthCredentialWithPniResponse
  receiveAuthCredentialWithPni :
    ServerPublicParams → UUID → UUID → Nat → AuthCredentialWithPniResponse →
      Except String AuthCredentialWithPni
  createAuthCredentialWithPniPresentation :
    ServerPublicParams → Randomness → GroupSecretParams → AuthCredentialWithPni →
      Except String Bytes
  generateRandomness : Randomness
  prodServerPublicParams : ServerPublicParams

/-! ## String helpers used by the decryption pipeline -/

/-- `hex.EncodeToString`: two lowercase hex digits per byte (for nibble
values 0-15, `Nat.digitChar` is exactly Go's `hextable` digit). -/
def hexEncodeBytes (bs : Bytes) : String :=
  String.mk ((bs.map (fun b => [Nat.digitChar (b / 16 % 16), Nat.digitChar (b % 16)])).flatten)

/-- `unicode.IsGraphic`, exact on the ASCII range (space and the printable
characters); non-ASCII code points are classified graphic here, which is the
common case and is not distinguished by any property under study. -/
def isGraphicGo (ch : Char) : Bool :=
  if ch.toNat < 128 then decide (32 ≤ ch.toNat) && decide (ch.toNat ≠ 127) else true

/-- `cleanupStringMapping` composed with `strings.Map`: the mapping returns
the rune unchanged when graphic and -1 (drop) otherwise, so the map is a
filter. -/
def cleanupStringMapping (s : List Char) : List Char :=
  s.filter isGraphicGo

/-- `unicode.IsSpace` (the cutset of `strings.TrimSpace`): Latin-1 white
space per the Go definition. -/
def isSpaceGo (ch : Char) : Bool :=
  ch = ' ' || ch = '\t' || ch = '\n' || ch.toNat = 11 || ch.toNat = 12 || ch = '\r' ||
    ch.toNat = 133 || ch.toNat = 160

def trimSpaceGo (s : List Char) : List Char :=
  ((s.dropWhile isSpaceGo).reverse.dropWhile isSpaceGo).reverse

/-- `cleanupStringProperty`: strip non-graphic runes, then trim edge white
space. -/
def cleanupStringProperty (property : String) : String :=
  String.mk (trimSpaceGo (cleanupStringMapping property.toList))

/-- Go's `uint64(int64)` conversion (two's complement reinterpretation),
applied to the redemption time. -/
def uint64OfInt (i : Int) : Nat := (i % (2 ^ 64)).toNat

/-! ## Master-key codec and group-identifier derivation -/

/-- `masterKeyToBytes`: base64-decode the serialized key.  The source panics
when the decode fails ("we should always be able to decode"); the panic is
modelled as `none`. -/
def masterKeyToBytes (groupMasterKey : SerializedGroupMasterKey) : Option GroupMasterKey :=
  base64DecodeList groupMasterKey.toList

/-- `masterKeyFromBytes`: base64-encode the raw key bytes. -/
def masterKeyFromBytes (masterKey : GroupMasterKey) : SerializedGroupMasterKey :=
  String.mk (base64EncodeList masterKey)

/-- `groupIdentifierFromMasterKey`: derive secret params, then public params,
then the group identifier, and base64-encode it.  `none` propagates the
`masterKeyToBytes` panic. -/
def groupIdentifierFromMasterKey (c : Crypto) (masterKey : SerializedGroupMasterKey) :
    Option (Except String GroupIdentifier) :=
  match masterKeyToBytes masterKey with
  | none => none
  | some masterKeyBytes =>
    some (match c.deriveGroupSecretParamsFromMasterKey masterKeyBytes with
      | .error e => .error ("DeriveGroupSecretParamsFromMasterKey error: " ++ e)
      | .ok groupSecretParams =>
        match c.getPublicParams groupSecretParams with
        | .error e => .error ("GetPublicParams error: " ++ e)
        | .ok groupPublicParams =>
          match c.getGroupIdentifier groupPublicParams with
          | .error e => .error ("GetGroupIdentifier error: " ++ e)
          | .ok groupIdentifier =>
            .ok (String.mk (base64EncodeList groupIdentifier)))

/-! ## Group decryption pipeline -/

/-- `decryptGroupPropertyIntoBlob`: decrypt-with-padding then protobuf-parse
into a `GroupAttributeBlob`. -/
def decryptGroupPropertyIntoBlob (c : Crypto) (groupSecretParams : GroupSecretParams)
    (encryptedProperty : Bytes) : Except String GroupAttributeBlob :=
  match c.decryptBlobWithPadding groupSecretParams encryptedProperty with
  | .error e => .error ("error decrypting blob with padding: " ++ e)
  | .ok decryptedProperty =>
    match c.unmarshalGroupAttributeBlob decryptedProperty with
    | .error e => .error ("error unmarshalling blob: " ++ e)
    | .ok propertyBlob => .ok propertyBlob

/-- The member loop of `decryptGroup`: skip `nil` entries, decrypt the user
id ciphertext, then the profile key ciphertext (which takes the decrypted
user id); the first failure aborts with that error. -/
def decryptMembers (c : Crypto) (groupSecretParams : GroupSecretParams) :
    List (Option EncMember) → Except String (List GroupMember)
  | [] => .ok []
  | none :: rest => decryptMembers c groupSecretParams rest
  | some member :: rest =>
    match c.decryptUUID groupSecretParams member.userId with
    | .error e => .error e
    | .ok userID =>
      match c.decryptProfileKey groupSecretParams member.profileKey userID with
      | .error e => .error e
      | .ok profileKey =>
        match decryptMembers c groupSecretParams rest with
        | .error e => .error e
        | .ok others =>
          .ok ({ userID := userID, role := member.role, profileKey := profileKey,
                 joinedAtRevision := member.joinedAtRevision } :: others)

/-- `decryptGroup`: the full pipeline.  The outer `Option` models the panic
of `masterKeyToBytes` on a malformed serialized key; the inner `Except` the
error return.  Title failure is fatal; description failure leaves the zero
value `""`; the disappearing-messages timer is only decrypted when the field
is non-empty; avatar path and revision are carried over unencrypted. -/
def decryptGroup (c : Crypto) (encryptedGroup : EncGroup)
    (groupMasterKey : SerializedGroupMasterKey) : Option (Except String Group) :=
  match masterKeyToBytes groupMasterKey with
  | none => none
  | some masterKeyBytes =>
    match c.deriveGroupSecretParamsFromMasterKey masterKeyBytes with
    | .error e => some (.error e)
    | .ok groupSecretParams =>
      match groupIdentifierFromMasterKey c groupMasterKey with
      | none => none
      | some (.error e) => some (.error e)
      | some (.ok gid) =>
        match decryptGroupPropertyIntoBlob c groupSecretParams encryptedGroup.title with
        | .error e => some (.error e)
        | .ok titleBlob =>
          let title := cleanupStringProperty titleBlob.title
          let description :=
            match decryptGroupPropertyIntoBlob c groupSecretParams encryptedGroup.description with
            | .ok descriptionBlob => cleanupStringProperty descriptionBlob.description
            | .error _ => ""
          let timerResult : Except String Nat :=
            if encryptedGroup.disappearingMessagesTimer ≠ [] then
              match decryptGroupPropertyIntoBlob c groupSecretParams
                  encryptedGroup.disappearingMessagesTimer with
              | .error e => .error e
              | .ok timerBlob => .ok timerBlob.disappearingMessagesDuration
            else .ok 0
          match timerResult with
          | .error e => some (.error e)
          | .ok disappearingMessagesDuration =>
            match decryptMembers c groupSecretParams encryptedGroup.members with
            | .error e => some (.error e)
            | .ok members =>
              some (.ok {
                groupMasterKey := groupMasterKey
                groupIdentifier := gid
                title := title
                avatarPath := encryptedGroup.avatar
                members := members
                description := description
                announcementsOnly := false
                revision := encryptedGroup.revision
                disappearingMessagesDuration := disappearingMessagesDuration })

/-! ## Daily credential manager -/

/-- `fetchNewGroupCreds`: transport send, status check, JSON unmarshal, then
the PNI integrity check.  The send outcome and the unmarshaller are
parameters (transport and serialization are external collaborators). -/
def fetchNewGroupCreds (storePNI : UUID) (sendResult : Except String WSResponse)
    (jsonUnmarshalCreds : Bytes → Except String GroupCredentials) :
    Except String GroupCredentials :=
  match sendResult with
  | .error e => .error ("SendRequest error: " ++ e)
  | .ok resp =>
    if resp.status ≠ 200 then
      .error ("bad status code fetching group creds: " ++ toString resp.status)
    else
      match jsonUnmarshalCreds resp.body with
      | .error e => .error e
      | .ok creds =>
        if creds.pni ≠ storePNI then .error ("creds.PNI != d.PNI")
        else .ok creds

/-- `getCachedAuthorizationForToday`: nil bundle means no credentials; else
the first entry whose redemption time equals today's start (epoch seconds). -/
def getCachedAuthorizationForToday (cached : Option GroupCredentials) (todayUnix : Int) :
    Option GroupCredential :=
  match cached with
  | none => none
  | some allCreds => allCreds.credentials.find? (fun cred => cred.redemptionTime = todayUnix)

/-- Lines 147-194 of `GetAuthorizationForToday`: once today's credential is
in hand, receive the auth credential, derive the group secret params, build
the presentation, and hex-encode public params and presentation into the
Basic-auth pair. -/
def getAuthorizationFromCredential (c : Crypto) (storeACI storePNI : UUID)
    (masterKey : GroupMasterKey) (todayCred : GroupCredential) : Except String GroupAuth :=
  let redemptionTime := uint64OfInt todayCred.redemptionTime
  match c.newAuthCredentialWithPniResponse todayCred.credential with
  | .error e => .error e
  | .ok authCredentialResponse =>
    match c.receiveAuthCredentialWithPni c.prodServerPublicParams storeACI storePNI
        redemptionTime authCredentialResponse with
    | .error e => .error e
    | .ok authCredential =>
      match c.deriveGroupSecretParamsFromMasterKey masterKey with
      | .error e => .error e
      | .ok groupSecretParams =>
        match c.createAuthCredentialWithPniPresentation c.prodServerPublicParams
            c.generateRandomness groupSecretParams authCredential with
        | .error e => .error e
        | .ok authCredentialPresentation =>
          match c.getPublicParams groupSecretParams with
          | .error e => .error e
          | .ok groupPublicParams =>
            .ok { username := hexEncodeBytes groupPublicParams,
                  password := hexEncodeBytes authCredentialPresentation }

/-- `GetAuthorizationForToday`: cached-bundle lookup for today, fetch and
replace on miss, re-check, fail if still absent, then the credential
redemption tail.  Returns the call result together with the (possibly
replaced) cached bundle; `fetchResult` is the outcome `fetchNewGroupCreds`
would produce on this call. -/
def getAuthorizationForToday (c : Crypto) (storeACI storePNI : UUID)
    (cached : Option GroupCredentials) (todayUnix : Int)
    (fetchResult : Except String GroupCredentials) (masterKey : GroupMasterKey) :
    Except String GroupAuth × Option GroupCredentials :=
  match getCachedAuthorizationForToday cached todayUnix with
  | some todayCred => (getAuthorizationFromCredential c storeACI storePNI masterKey todayCred, cached)
  | none =>
    match fetchResult with
    | .error e => (.error ("fetchNewGroupCreds error: " ++ e), cached)
    | .ok creds =>
      match getCachedAuthorizationForToday (some creds) todayUnix with
      | none => (.error ("couldn't get credential for today"), some creds)
      | some todayCred =>
        (getAuthorizationFromCredential c storeACI storePNI masterKey todayCred, some creds)

/-! ## Group metadata cache and active-call tracker -/

/-- `1 * time.Hour` in nanoseconds (Go `time.Duration`). -/
def oneHour : Int := 3600000000000

/-- `RetrieveGroupByID`: serve from cache when the last fetch is fresh and
the cached revision suffices; otherwise defer to the fetch outcome
(`fetchGroupByID` is network + decryption, abstracted as `fetchResult`) and,
on success, store group and timestamp.  Returns the result together with the
updated cache. -/
def retrieveGroupByID (cache : GroupCache) (now : Int)
    (fetchResult : Except String Group) (gid : GroupIdentifier) (revision : Nat) :
    Except String Group × GroupCache :=
  let hit : Option Group :=
    match mapGet cache.lastFetched gid with
    | some lastFetchedTime =>
      if now - lastFetchedTime < oneHour then
        match mapGet cache.groups gid with
        | some group => if group.revision ≥ revision then some group else none
        | none => none
      else none
    | none => none
  match hit with
  | some group => (.ok group, cache)
  | none =>
    match fetchResult with
    | .error e => (.error e, cache)
    | .ok group =>
      (.ok group,
        { cache with
            groups := mapSet cache.groups gid group,
            lastFetched := mapSet cache.lastFetched gid now })

/-- `UpdateActiveCalls`: single-slot toggle per group; same id ends the call,
anything else (including no recorded call) records the new id and reports a
new call. -/
def updateActiveCalls (cache : GroupCache) (gid : GroupIdentifier) (callID : String) :
    Bool × GroupCache :=
  match mapGet cache.activeCalls gid with
  | some currentCallID =>
    if currentCallID = callID then
      (false, { cache with activeCalls := mapDel cache.activeCalls gid })
    else
      (true, { cache with activeCalls := mapSet cache.activeCalls gid callID })
  | none => (true, { cache with activeCalls := mapSet cache.activeCalls gid callID })

/-! ## Concrete fixtures (used by witnesses and counterexamples) -/

def testBlob (b : Bytes) : GroupAttributeBlob :=
  { title := if b = [1] then ("Team Chat") else (""),
    description := if b = [2] then ("About us") else (""),
    avatar := [],
    disappearingMessagesDuration := if b = [3] then 42 else 0 }

/-- A concrete, deterministic crypto oracle: ciphertexts are passed through,
`[9]` makes any decryption fail, `[8]` makes the protobuf parse fail. -/
def testCrypto : Crypto where
  deriveGroupSecretParamsFromMasterKey := fun _ => .ok 7
  getPublicParams := fun sp => .ok [sp, 1]
  getGroupIdentifier := fun pp => .ok (pp ++ [2])
  decryptBlobWithPadding := fun _ b => if b = [9] then .error ("ciphertext rejected") else .ok b
  unmarshalGroupAttributeBlob := fun b =>
    if b = [8] then .error ("truncated message") else .ok (testBlob b)
  decryptUUID := fun _ b => if b = [9] then .error ("uuid rejected") else .ok (b.headD 0)
  decryptProfileKey := fun _ b uid =>
    if b = [9] then .error ("profile key rejected") else .ok (b.headD 0 + uid)
  newAuthCredentialWithPniResponse := fun b =>
    if b = [9] then .error ("response rejected") else .ok 11
  receiveAuthCredentialWithPni := fun _ _ _ _ _ => .ok 12
  createAuthCredentialWithPniPresentation := fun _ _ sp cred => .ok [sp, cred]
  generateRandomness := 0
  prodServerPublicParams := 1

def mkBytesW : Bytes := List.replicate 32 0

def mkW : SerializedGroupMasterKey := masterKeyFromBytes mkBytesW

def gidW : GroupIdentifier := String.mk (base64EncodeList [7, 1, 2])

/-! ## Claim C7: active-call toggle -/

/-- C7: `UpdateActiveCalls` is a single-slot toggle: with no call recorded it
records the id and returns true; with the same id recorded it removes the
record and returns false; with a different id recorded it overwrites the slot
(returning true); and from the empty state the sequence
`Toggle(g,c)`, `Toggle(g,c)`, `Toggle(g,c)` returns true, false, true. -/
theorem updateActiveCalls_toggle_spec (cache : GroupCache) (gid : GroupIdentifier)
    (callID : String) :
    (mapGet cache.activeCalls gid = none →
      updateActiveCalls cache gid callID =
        (true, { cache with activeCalls := mapSet cache.activeCalls gid callID }))
  ∧ (mapGet cache.activeCalls gid = some callID →
      updateActiveCalls cache gid callID =
        (false, { cache with activeCalls := mapDel cache.activeCalls gid }))
  ∧ (∀ other, mapGet cache.activeCalls gid = some other → other ≠ callID →
      updateActiveCalls cache gid callID =
        (true, { cache with activeCalls := mapSet cache.activeCalls gid callID }))
  ∧ (let s1 := updateActiveCalls emptyGroupCache gid callID
     let s2 := updateActiveCalls s1.2 gid callID
     let s3 := updateActiveCalls s2.2 gid callID
     s1.1 = true ∧ s2.1 = false ∧ s3.1 = true) := by
  refine ⟨?_, ?_, ?_, ?_⟩
  · intro h
    simp [updateActiveCalls, h]
  · intro h
    simp [updateActiveCalls, h]
  · intro other h hne
    simp [updateActiveCalls, h, hne]
  · simp [updateActiveCalls, emptyGroupCache, mapGet, mapSet, mapDel]

def cacheCallW : GroupCache :=
  { groups := [], lastFetched := [], activeCalls := [("g1", "c1")] }

theorem updateActiveCalls_toggle_spec_witness :
    updateActiveCalls cacheCallW ("g1") ("c1") =
      (false, { cacheCallW with activeCalls := mapDel cacheCallW.activeCalls ("g1") }) :=
  (updateActiveCalls_toggle_spec cacheCallW ("g1") ("c1")).2.1 (by decide)

/-! ## Claim C8: master-key codec round-trip -/

/-- C8: for every well-formed fixed-length master key (32 bytes, each < 256),
`masterKeyFromBytes` followed by `masterKeyToBytes` restores the key exactly
(`none` would be the decode panic, which therefore cannot happen on
serialized keys the codec itself produced). -/
theorem masterKey_roundtrip (k : GroupMasterKey) (_hlen : k.length = 32)
    (hbytes : ∀ b ∈ k, b < 256) :
    masterKeyToBytes (masterKeyFromBytes k) = some k := by
  unfold masterKeyToBytes masterKeyFromBytes
  show base64DecodeList (base64EncodeList k) = some k
  exact base64_roundtrip k hbytes

theorem masterKey_roundtrip_witness :
    mkBytesW.length = 32 ∧ (∀ b ∈ mkBytesW, b < 256) ∧
      masterKeyToBytes (masterKeyFromBytes mkBytesW) = some mkBytesW :=
  ⟨by decide, by decide, masterKey_roundtrip mkBytesW (by decide) (by decide)⟩

/-! ## Claim C10: failed fetches never touch the caches -/

/-- C10: when the underlying fetch (or its decryption stage) reports an
error, `RetrieveGroupByID` leaves both the group map and the last-fetched map
untouched, and when `fetchNewGroupCreds` reports an error,
`GetAuthorizationForToday` leaves the cached credential bundle untouched. -/
theorem fetchError_leaves_caches_unchanged (cache : GroupCache) (now : Int)
    (gid : GroupIdentifier) (revision : Nat) (e : String)
    (c : Crypto) (storeACI storePNI : UUID) (cached : Option GroupCredentials)
    (todayUnix : Int) (e2 : String) (masterKey : GroupMasterKey) :
    (retrieveGroupByID cache now (.error e) gid revision).2 = cache
  ∧ (getAuthorizationForToday c storeACI storePNI cached todayUnix (.error e2) masterKey).2
      = cached := by
  constructor
  · unfold retrieveGroupByID
    dsimp only
    repeat' split
    all_goals rfl
  · unfold getAuthorizationForToday
    repeat' split
    all_goals first | rfl | simp_all

/-! ## Claim C3: unrecognized member roles -/

def egRole5 : EncGroup :=
  { title := [1], description := [2], disappearingMessagesTimer := [],
    avatar := "", revision := 1,
    members := [some { userId := [10], role := 5, profileKey := [20], joinedAtRevision := 0 }] }

/-- C3 counterexample: a member whose protobuf role number is 5 (not one of
the recognized values 0/1/2) is decoded by `decryptGroup` with role 5 kept
verbatim — an out-of-range `GroupMemberRole`, not the "unknown" value 0 the
claim demands. -/
theorem decryptGroup_role5_not_unknown :
    (decryptGroup testCrypto egRole5 mkW).map (fun r => r.map (fun g => g.members.map (fun m => m.role)))
      = some (.ok [5])
  ∧ (5 : GroupMemberRole) ≠ GroupMember_UNKNOWN
  ∧ (5 : GroupMemberRole) ≠ GroupMember_DEFAULT
  ∧ (5 : GroupMemberRole) ≠ GroupMember_ADMINISTRATOR := by
  refine ⟨rfl, by decide, by decide, by decide⟩

/-- C3 amended: an unrecognized numeric role never makes member decryption
fail — success is independent of the role number — and the decoded member
carries the numeric role value through unchanged (the Go code converts the
protobuf number with a plain integer cast, so out-of-range values are
preserved rather than coerced to `GroupMember_UNKNOWN`). -/
theorem decryptMembers_role_passthrough (c : Crypto) (sp : GroupSecretParams)
    (member : EncMember) (r : Int) (rest : List (Option EncMember)) :
    ((decryptMembers c sp (some { member with role := r } :: rest)).isOk =
      (decryptMembers c sp (some member :: rest)).isOk)
  ∧ (∀ l, decryptMembers c sp (some { member with role := r } :: rest) = .ok l →
      ∃ first others, l = first :: others ∧ first.role = r) := by
  constructor
  · cases h1 : c.decryptUUID sp member.userId with
    | error e => simp [decryptMembers, h1]
    | ok userID =>
      cases h2 : c.decryptProfileKey sp member.profileKey userID with
      | error e => simp [decryptMembers, h1, h2]
      | ok profileKey =>
        cases h3 : decryptMembers c sp rest with
        | error e => simp [decryptMembers, h1, h2, h3]
        | ok others => simp [decryptMembers, h1, h2, h3, Except.isOk, Except.toBool]
  · intro l hl
    unfold decryptMembers at hl
    cases h1 : c.decryptUUID sp member.userId with
    | error e => simp [h1] at hl
    | ok userID =>
      cases h2 : c.decryptProfileKey sp member.profileKey userID with
      | error e => simp [h1, h2] at hl
      | ok profileKey =>
        cases h3 : decryptMembers c sp rest with
        | error e => simp [h1, h2, h3] at hl
        | ok others =>
          simp only [h1, h2, h3] at hl
          cases hl
          exact ⟨_, others, rfl, rfl⟩

def memberW : EncMember := { userId := [10], role := 1, profileKey := [20], joinedAtRevision := 0 }

theorem decryptMembers_role_passthrough_witness :
    ∃ first others,
      ([{ userID := 10, role := 99, profileKey := 30, joinedAtRevision := 0 }] : List GroupMember)
        = first :: others ∧ first.role = 99 :=
  (decryptMembers_role_passthrough testCrypto 7 memberW 99 []).2
    [{ userID := 10, role := 99, profileKey := 30, joinedAtRevision := 0 }] rfl

/-! ## Claim C5: PNI mismatch is fatal and the bundle is discarded -/

/-- C5: whenever the issuance endpoint's bundle carries a PNI different from
the session's stored PNI, `fetchNewGroupCreds` fails with the mismatch error
(the bundle is not returned), and a `GetAuthorizationForToday` call driven by
that fetch fails and leaves the previously cached bundle in place — the
mismatched bundle is neither used nor cached, and the single fetch outcome is
never retried within the call. -/
theorem fetchNewGroupCreds_pni_mismatch (storePNI : UUID) (resp : WSResponse)
    (parse : Bytes → Except String GroupCredentials) (creds : GroupCredentials)
    (hstatus : resp.status = 200) (hparse : parse resp.body = .ok creds)
    (hmismatch : creds.pni ≠ storePNI) :
    fetchNewGroupCreds storePNI (.ok resp) parse = .error ("creds.PNI != d.PNI")
  ∧ ∀ (c : Crypto) (storeACI : UUID) (cached : Option GroupCredentials) (todayUnix : Int)
      (masterKey : GroupMasterKey),
      getCachedAuthorizationForToday cached todayUnix = none →
      getAuthorizationForToday c storeACI storePNI cached todayUnix
          (fetchNewGroupCreds storePNI (.ok resp) parse) masterKey =
        (.error ("fetchNewGroupCreds error: " ++ "creds.PNI != d.PNI"), cached) := by
  have hfetch : fetchNewGroupCreds storePNI (.ok resp) parse = .error ("creds.PNI != d.PNI") := by
    simp [fetchNewGroupCreds, hstatus, hparse, hmismatch]
  refine ⟨hfetch, ?_⟩
  intro c storeACI cached todayUnix masterKey hnone
  simp [getAuthorizationForToday, hnone, hfetch]

def respW : WSResponse := { status := 200, body := [1, 2, 3] }

def credsMismatchW : GroupCredentials :=
  { credentials := [{ credential := [4], redemptionTime := 86400 }], pni := 21 }

def parseMismatchW : Bytes → Except String GroupCredentials := fun _ => .ok credsMismatchW

theorem fetchNewGroupCreds_pni_mismatch_witness :
    fetchNewGroupCreds 20 (.ok respW) parseMismatchW = .error ("creds.PNI != d.PNI") :=
  (fetchNewGroupCreds_pni_mismatch 20 respW parseMismatchW credsMismatchW rfl rfl
    (by decide)).1

/-! ## Claim C4: day-scoped credential lookup, refetch, and failure -/

/-- C4: `GetAuthorizationForToday` looks the cached bundle up by exact match
of an entry's redemption time with the start of the current day; on a miss it
runs one fetch, replaces the cached bundle by the fetched one, and re-checks
by the same exact-day match; if the fresh bundle still has no entry for today
the call fails with an error. -/
theorem getAuthorizationForToday_cache_behavior (c : Crypto) (storeACI storePNI : UUID)
    (cached : Option GroupCredentials) (todayUnix : Int)
    (fetchResult : Except String GroupCredentials) (masterKey : GroupMasterKey) :
    (∀ cred, getCachedAuthorizationForToday cached todayUnix = some cred →
      cred.redemptionTime = todayUnix ∧
        getAuthorizationForToday c storeACI storePNI cached todayUnix fetchResult masterKey =
          (getAuthorizationFromCredential c storeACI storePNI masterKey cred, cached))
  ∧ (getCachedAuthorizationForToday cached todayUnix = none →
      (∀ e, fetchResult = .error e →
        getAuthorizationForToday c storeACI storePNI cached todayUnix fetchResult masterKey =
          (.error ("fetchNewGroupCreds error: " ++ e), cached))
      ∧ (∀ creds, fetchResult = .ok creds →
          (getCachedAuthorizationForToday (some creds) todayUnix = none →
            getAuthorizationForToday c storeACI storePNI cached todayUnix fetchResult masterKey =
              (.error ("couldn't get credential for today"), some creds))
          ∧ (∀ cred, getCachedAuthorizationForToday (some creds) todayUnix = some cred →
              cred.redemptionTime = todayUnix ∧
                getAuthorizationForToday c storeACI storePNI cached todayUnix fetchResult
                    masterKey =
                  (getAuthorizationFromCredential c storeACI storePNI masterKey cred,
                    some creds)))) := by
  have hday : ∀ (b : Option GroupCredentials) (cred : GroupCredential),
      getCachedAuthorizationForToday b todayUnix = some cred →
      cred.redemptionTime = todayUnix := by
    intro b cred h
    cases b with
    | none => simp [getCachedAuthorizationForToday] at h
    | some allCreds =>
      simp only [getCachedAuthorizationForToday] at h
      have := List.find?_some h
      exact of_decide_eq_true this
  refine ⟨?_, ?_⟩
  · intro cred hlookup
    exact ⟨hday cached cred hlookup, by simp [getAuthorizationForToday, hlookup]⟩
  · intro hnone
    refine ⟨?_, ?_⟩
    · intro e he
      simp [getAuthorizationForToday, hnone, he]
    · intro creds hok
      refine ⟨?_, ?_⟩
      · intro hnone2
        simp [getAuthorizationForToday, hnone, hok, hnone2]
      · intro cred hlookup2
        exact ⟨hday (some creds) cred hlookup2,
          by simp [getAuthorizationForToday, hnone, hok, hlookup2]⟩

def credTodayW : GroupCredential := { credential := [4], redemptionTime := 86400 }

def credsBundleW : GroupCredentials :=
  { credentials := [{ credential := [3], redemptionTime := 0 }, credTodayW], pni := 20 }

theorem getAuthorizationForToday_cache_behavior_witness :
    credTodayW.redemptionTime = 86400 ∧
      getAuthorizationForToday testCrypto 5 20 (some credsBundleW) 86400
          (.error ("unused")) mkBytesW =
        (getAuthorizationFromCredential testCrypto 5 20 mkBytesW credTodayW,
          some credsBundleW) :=
  (getAuthorizationForToday_cache_behavior testCrypto 5 20 (some credsBundleW) 86400
    (.error ("unused")) mkBytesW).1 credTodayW (by decide)

/-! ## Claim C9: shape of a successful GroupAuth -/

/-- Helper: inversion of the credential-redemption tail — a successful
`GroupAuth` is exactly the hex encoding of the derived group public params
(username) and of the anonymous credential presentation (password). -/
theorem getAuthorizationFromCredential_ok (c : Crypto) (storeACI storePNI : UUID)
    (masterKey : GroupMasterKey) (todayCred : GroupCredential) (auth : GroupAuth)
    (h : getAuthorizationFromCredential c storeACI storePNI masterKey todayCred = .ok auth) :
    ∃ groupSecretParams groupPublicParams presentation authCredential,
      c.deriveGroupSecretParamsFromMasterKey masterKey = .ok groupSecretParams ∧
      c.getPublicParams groupSecretParams = .ok groupPublicParams ∧
      c.createAuthCredentialWithPniPresentation c.prodServerPublicParams c.generateRandomness
          groupSecretParams authCredential = .ok presentation ∧
      auth.username = hexEncodeBytes groupPublicParams ∧
      auth.password = hexEncodeBytes presentation := by
  unfold getAuthorizationFromCredential at h
  cases h1 : c.newAuthCredentialWithPniResponse todayCred.credential with
  | error e => simp [h1] at h
  | ok authCredentialResponse =>
    simp only [h1] at h
    cases h2 : c.receiveAuthCredentialWithPni c.prodServerPublicParams storeACI storePNI
        (uint64OfInt todayCred.redemptionTime) authCredentialResponse with
    | error e => simp [h2] at h
    | ok authCredential =>
      simp only [h2] at h
      cases h3 : c.deriveGroupSecretParamsFromMasterKey masterKey with
      | error e => simp [h3] at h
      | ok groupSecretParams =>
        simp only [h3] at h
        cases h4 : c.createAuthCredentialWithPniPresentation c.prodServerPublicParams
            c.generateRandomness groupSecretParams authCredential with
        | error e => simp [h4] at h
        | ok presentation =>
          simp only [h4] at h
          cases h5 : c.getPublicParams groupSecretParams with
          | error e => simp [h5] at h
          | ok groupPublicParams =>
            simp only [h5, Except.ok.injEq] at h
            exact ⟨groupSecretParams, groupPublicParams, presentation, authCredential,
              rfl, h5, h4, by rw [← h], by rw [← h]⟩

/-- C9: whenever `GetAuthorizationForToday` succeeds, the returned username
is the hex encoding of the group public params derived from the master key's
secret params, and the password is the hex encoding of the anonymous
credential presentation. -/
theorem getAuthorizationForToday_success_encoding (c : Crypto) (storeACI storePNI : UUID)
    (cached : Option GroupCredentials) (todayUnix : Int)
    (fetchResult : Except String GroupCredentials) (masterKey : GroupMasterKey)
    (auth : GroupAuth)
    (h : (getAuthorizationForToday c storeACI storePNI cached todayUnix fetchResult
        masterKey).1 = .ok auth) :
    ∃ groupSecretParams groupPublicParams presentation authCredential,
      c.deriveGroupSecretParamsFromMasterKey masterKey = .ok groupSecretParams ∧
      c.getPublicParams groupSecretParams = .ok groupPublicParams ∧
      c.createAuthCredentialWithPniPresentation c.prodServerPublicParams c.generateRandomness
          groupSecretParams authCredential = .ok presentation ∧
      auth.username = hexEncodeBytes groupPublicParams ∧
      auth.password = hexEncodeBytes presentation := by
  unfold getAuthorizationForToday at h
  cases hl : getCachedAuthorizationForToday cached todayUnix with
  | some todayCred =>
    simp only [hl] at h
    exact getAuthorizationFromCredential_ok c storeACI storePNI masterKey todayCred auth h
  | none =>
    simp only [hl] at h
    cases hf : fetchResult with
    | error e => simp [hf] at h
    | ok creds =>
      simp only [hf] at h
      cases hl2 : getCachedAuthorizationForToday (some creds) todayUnix with
      | none => simp [hl2] at h
      | some todayCred =>
        simp only [hl2] at h
        exact getAuthorizationFromCredential_ok c storeACI storePNI masterKey todayCred auth h

theorem getAuthorizationForToday_success_encoding_witness :
    ∃ groupSecretParams groupPublicParams presentation authCredential,
      testCrypto.deriveGroupSecretParamsFromMasterKey mkBytesW = .ok groupSecretParams ∧
      testCrypto.getPublicParams groupSecretParams = .ok groupPublicParams ∧
      testCrypto.createAuthCredentialWithPniPresentation testCrypto.prodServerPublicParams
          testCrypto.generateRandomness groupSecretParams authCredential = .ok presentation ∧
      ({ username := hexEncodeBytes [7, 1], password := hexEncodeBytes [7, 12] } :
          GroupAuth).username = hexEncodeBytes groupPublicParams ∧
      ({ username := hexEncodeBytes [7, 1], password := hexEncodeBytes [7, 12] } :
          GroupAuth).password = hexEncodeBytes presentation :=
  getAuthorizationForToday_success_encoding testCrypto 5 20 (some credsBundleW) 86400
    (.error ("unused")) mkBytesW
    { username := hexEncodeBytes [7, 1], password := hexEncodeBytes [7, 12] } (by rfl)

/-! ## Claim C1: the group metadata cache -/

/-- Cache-hit condition, transcribed from the claim's wording: a cached entry
and a last-fetch timestamp exist for the identifier, the time since the last
fetch is strictly less than one hour, and the cached revision is at least the
requested minimum. -/
def specCacheHit (cache : GroupCache) (now : Int) (gid : GroupIdentifier)
    (revision : Nat) : Prop :=
  ∃ group lastFetchedTime,
    mapGet cache.groups gid = some group ∧
    mapGet cache.lastFetched gid = some lastFetchedTime ∧
    now - lastFetchedTime < oneHour ∧
    revision ≤ group.revision

/-- C1: `RetrieveGroupByID` returns the cached group, touching nothing and
independently of the fetch outcome, exactly when `specCacheHit` holds; in
every other case it defers to the single fetch: a fetched group is stored
under the identifier together with the fresh timestamp and returned, a fetch
error is returned with the cache untouched. -/
theorem retrieveGroupByID_cache_spec (cache : GroupCache) (now : Int)
    (fetchResult : Except String Group) (gid : GroupIdentifier) (revision : Nat) :
    (specCacheHit cache now gid revision →
      ∃ group, mapGet cache.groups gid = some group ∧
        retrieveGroupByID cache now fetchResult gid revision = (.ok group, cache))
  ∧ (¬ specCacheHit cache now gid revision →
      retrieveGroupByID cache now fetchResult gid revision =
        match fetchResult with
        | .error e => (.error e, cache)
        | .ok group =>
          (.ok group,
            { cache with
                groups := mapSet cache.groups gid group,
                lastFetched := mapSet cache.lastFetched gid now })) := by
  constructor
  · rintro ⟨group, lastFetchedTime, hg, hlf, hfresh, hrev⟩
    refine ⟨group, hg, ?_⟩
    unfold retrieveGroupByID
    simp only [hlf, hg, if_pos hfresh, ge_iff_le, if_pos hrev]
  · intro hmiss
    unfold retrieveGroupByID
    cases hlf : mapGet cache.lastFetched gid with
    | none => rfl
    | some lastFetchedTime =>
      by_cases hfresh : now - lastFetchedTime < oneHour
      · cases hg : mapGet cache.groups gid with
        | none => simp only [if_pos hfresh]
        | some group =>
          by_cases hrev : revision ≤ group.revision
          · exact absurd ⟨group, lastFetchedTime, hg, hlf, hfresh, hrev⟩ hmiss
          · simp only [if_pos hfresh, ge_iff_le, if_neg hrev]
      · simp only [if_neg hfresh]

def groupW : Group :=
  { groupMasterKey := mkW, groupIdentifier := gidW, title := "Team Chat", avatarPath := "",
    members := [], description := "", announcementsOnly := false, revision := 5,
    disappearingMessagesDuration := 0 }

def cacheHitW : GroupCache :=
  { groups := [("gid1", groupW)], lastFetched := [("gid1", 100)], activeCalls := [] }

theorem retrieveGroupByID_cache_spec_witness :
    ∃ group, mapGet cacheHitW.groups ("gid1") = some group ∧
      retrieveGroupByID cacheHitW 200 (.error ("unused")) ("gid1") 3 = (.ok group, cacheHitW) :=
  (retrieveGroupByID_cache_spec cacheHitW 200 (.error ("unused")) ("gid1") 3).1
    ⟨groupW, 100, by decide, by decide, by decide, by decide⟩

/-! ## Claim C2: title failure is fatal, description failure is soft -/

/-- C2: with the key material and identifier derivation in hand, a failure to
decrypt or parse the title blob makes `decryptGroup` fail with that error,
whatever the rest of the record holds; a failure on the description blob
alone (all other stages succeeding) still yields a group, whose description
is the empty string. -/
theorem decryptGroup_title_fatal_description_soft (c : Crypto) (encryptedGroup : EncGroup)
    (groupMasterKey : SerializedGroupMasterKey) (masterKeyBytes : GroupMasterKey)
    (groupSecretParams : GroupSecretParams) (gid : GroupIdentifier)
    (hmk : masterKeyToBytes groupMasterKey = some masterKeyBytes)
    (hsp : c.deriveGroupSecretParamsFromMasterKey masterKeyBytes = .ok groupSecretParams)
    (hgid : groupIdentifierFromMasterKey c groupMasterKey = some (.ok gid)) :
    (∀ e, decryptGroupPropertyIntoBlob c groupSecretParams encryptedGroup.title = .error e →
      decryptGroup c encryptedGroup groupMasterKey = some (.error e))
  ∧ (∀ titleBlob e,
      decryptGroupPropertyIntoBlob c groupSecretParams encryptedGroup.title = .ok titleBlob →
      decryptGroupPropertyIntoBlob c groupSecretParams encryptedGroup.description = .error e →
      (encryptedGroup.disappearingMessagesTimer ≠ [] →
        ∃ timerBlob, decryptGroupPropertyIntoBlob c groupSecretParams
            encryptedGroup.disappearingMessagesTimer = .ok timerBlob) →
      (∃ members, decryptMembers c groupSecretParams encryptedGroup.members = .ok members) →
      ∃ group, decryptGroup c encryptedGroup groupMasterKey = some (.ok group) ∧
        group.description = "") := by
  constructor
  · intro e htitle
    unfold decryptGroup
    simp only [hmk, hsp, hgid, htitle]
  · rintro titleBlob e htitle hdesc htimer ⟨members, hmem⟩
    unfold decryptGroup
    simp only [hmk, hsp, hgid, htitle, hdesc]
    by_cases ht : encryptedGroup.disappearingMessagesTimer = []
    · simp only [ht, ne_eq, not_true_eq_false, if_false, hmem]
      exact ⟨_, rfl, rfl⟩
    · obtain ⟨timerBlob, htb⟩ := htimer ht
      simp only [if_pos ht, htb, hmem]
      exact ⟨_, rfl, rfl⟩

def egSoftDescW : EncGroup :=
  { title := [1], description := [9], disappearingMessagesTimer := [],
    avatar := "", revision := 2,
    members := [some memberW, none] }

theorem decryptGroup_title_fatal_description_soft_witness :
    ∃ group, decryptGroup testCrypto egSoftDescW mkW = some (.ok group) ∧
      group.description = "" :=
  (decryptGroup_title_fatal_description_soft testCrypto egSoftDescW mkW mkBytesW 7 gidW
      rfl rfl rfl).2 (testBlob [1])
    ("error decrypting blob with padding: " ++ "ciphertext rejected") rfl rfl
    (fun h => absurd rfl h)
    ⟨[{ userID := 10, role := 1, profileKey := 30, joinedAtRevision := 0 }], rfl⟩

/-! ## Claim C6: member decryption binding and atomicity -/

/-- A member entry on which the member loop must fail: either its user-id
ciphertext does not decrypt, or it does and the profile-key ciphertext does
not decrypt under the resulting user id. -/
def badMember (c : Crypto) (sp : GroupSecretParams) (m : EncMember) : Prop :=
  (∃ e, c.decryptUUID sp m.userId = .error e) ∨
  (∃ userID e, c.decryptUUID sp m.userId = .ok userID ∧
      c.decryptProfileKey sp m.profileKey userID = .error e)

theorem decryptMembers_ok_forall2 (c : Crypto) (sp : GroupSecretParams) :
    ∀ (ms : List (Option EncMember)) (l : List GroupMember),
      decryptMembers c sp ms = .ok l →
      List.Forall₂ (fun (srcm : EncMember) (outm : GroupMember) =>
          c.decryptUUID sp srcm.userId = .ok outm.userID ∧
          c.decryptProfileKey sp srcm.profileKey outm.userID = .ok outm.profileKey)
        ms.reduceOption l
  | [], l, h => by
    unfold decryptMembers at h
    simp only [Except.ok.injEq] at h
    subst h
    simp [List.reduceOption_nil]
  | none :: rest, l, h => by
    unfold decryptMembers at h
    simpa [List.reduceOption_cons_of_none] using decryptMembers_ok_forall2 c sp rest l h
  | some member :: rest, l, h => by
    unfold decryptMembers at h
    cases h1 : c.decryptUUID sp member.userId with
    | error e => simp [h1] at h
    | ok userID =>
      simp only [h1] at h
      cases h2 : c.decryptProfileKey sp member.profileKey userID with
      | error e => simp [h2] at h
      | ok profileKey =>
        simp only [h2] at h
        cases h3 : decryptMembers c sp rest with
        | error e => simp [h3] at h
        | ok others =>
          simp only [h3, Except.ok.injEq] at h
          subst h
          rw [List.reduceOption_cons_of_some]
          exact List.Forall₂.cons ⟨h1, h2⟩ (decryptMembers_ok_forall2 c sp rest others h3)

theorem decryptMembers_error_of_bad (c : Crypto) (sp : GroupSecretParams) :
    ∀ ms : List (Option EncMember),
      (∃ m ∈ ms.reduceOption, badMember c sp m) →
      ∃ e, decryptMembers c sp ms = .error e
  | [], h => by simp [List.reduceOption_nil] at h
  | none :: rest, h => by
    rw [List.reduceOption_cons_of_none] at h
    obtain ⟨e, he⟩ := decryptMembers_error_of_bad c sp rest h
    exact ⟨e, by simpa [decryptMembers] using he⟩
  | some member :: rest, h => by
    rw [List.reduceOption_cons_of_some] at h
    unfold decryptMembers
    cases h1 : c.decryptUUID sp member.userId with
    | error e => exact ⟨e, by rfl⟩
    | ok userID =>
      cases h2 : c.decryptProfileKey sp member.profileKey userID with
      | error e => exact ⟨e, by simp [h2]⟩
      | ok profileKey =>
        have hrest : ∃ m ∈ rest.reduceOption, badMember c sp m := by
          obtain ⟨m, hm, hbad⟩ := h
          rcases List.mem_cons.mp hm with rfl | hmem
          · rcases hbad with ⟨e, he⟩ | ⟨uid, e, hu, hp⟩
            · rw [h1] at he
              simp at he
            · rw [h1] at hu
              simp only [Except.ok.injEq] at hu
              subst hu
              rw [h2] at hp
              simp at hp
          · exact ⟨m, hmem, hbad⟩
        obtain ⟨e, he⟩ := decryptMembers_error_of_bad c sp rest hrest
        exact ⟨e, by simp [h2, he]⟩

/-- C6: with the key material and identifier derivation in hand, a decrypted
group's member list corresponds pairwise to the non-null encrypted entries:
each user id is the decryption of the entry's user-id ciphertext and each
profile key is the decryption of the entry's profile-key ciphertext taken at
that decrypted user id (the binding); and if any non-null entry fails either
decryption, `decryptGroup` returns an error — no group and no partial member
list. -/
theorem decryptGroup_member_binding (c : Crypto) (encryptedGroup : EncGroup)
    (groupMasterKey : SerializedGroupMasterKey) (masterKeyBytes : GroupMasterKey)
    (groupSecretParams : GroupSecretParams) (gid : GroupIdentifier)
    (hmk : masterKeyToBytes groupMasterKey = some masterKeyBytes)
    (hsp : c.deriveGroupSecretParamsFromMasterKey masterKeyBytes = .ok groupSecretParams)
    (hgid : groupIdentifierFromMasterKey c groupMasterKey = some (.ok gid)) :
    (∀ group, decryptGroup c encryptedGroup groupMasterKey = some (.ok group) →
      List.Forall₂ (fun (srcm : EncMember) (outm : GroupMember) =>
          c.decryptUUID groupSecretParams srcm.userId = .ok outm.userID ∧
          c.decryptProfileKey groupSecretParams srcm.profileKey outm.userID
            = .ok outm.profileKey)
        encryptedGroup.members.reduceOption group.members)
  ∧ ((∃ m ∈ encryptedGroup.members.reduceOption, badMember c groupSecretParams m) →
      ∃ e, decryptGroup c encryptedGroup groupMasterKey = some (.error e)) := by
  constructor
  · intro group h
    unfold decryptGroup at h
    simp only [hmk, hsp, hgid] at h
    cases ht : decryptGroupPropertyIntoBlob c groupSecretParams encryptedGroup.title with
    | error e => simp [ht] at h
    | ok titleBlob =>
      simp only [ht] at h
      by_cases htimer : encryptedGroup.disappearingMessagesTimer = []
      · simp only [htimer, ne_eq, not_true_eq_false, if_false] at h
        cases hm : decryptMembers c groupSecretParams encryptedGroup.members with
        | error e => simp [hm] at h
        | ok members =>
          simp only [hm, Option.some.injEq, Except.ok.injEq] at h
          have hmembers : group.members = members := by rw [← h]
          rw [hmembers]
          exact decryptMembers_ok_forall2 c groupSecretParams _ _ hm
      · rw [if_pos htimer] at h
        cases htb : decryptGroupPropertyIntoBlob c groupSecretParams
            encryptedGroup.disappearingMessagesTimer with
        | error e => simp [htb] at h
        | ok timerBlob =>
          simp only [htb] at h
          cases hm : decryptMembers c groupSecretParams encryptedGroup.members with
          | error e => simp [hm] at h
          | ok members =>
            simp only [hm, Option.some.injEq, Except.ok.injEq] at h
            have hmembers : group.members = members := by rw [← h]
            rw [hmembers]
            exact decryptMembers_ok_forall2 c groupSecretParams _ _ hm
  · intro hbad
    obtain ⟨e0, hmem⟩ := decryptMembers_error_of_bad c groupSecretParams
      encryptedGroup.members hbad
    unfold decryptGroup
    simp only [hmk, hsp, hgid]
    cases ht : decryptGroupPropertyIntoBlob c groupSecretParams encryptedGroup.title with
    | error e => exact ⟨e, rfl⟩
    | ok titleBlob =>
      by_cases htimer : encryptedGroup.disappearingMessagesTimer = []
      · simp only [htimer, ne_eq, not_true_eq_false, if_false, hmem]
        exact ⟨e0, rfl⟩
      · rw [if_pos htimer]
        cases htb : decryptGroupPropertyIntoBlob c groupSecretParams
            encryptedGroup.disappearingMessagesTimer with
        | error e => exact ⟨e, rfl⟩
        | ok timerBlob =>
          rw [hmem]
          exact ⟨e0, rfl⟩

def groupOutW : Group :=
  { groupMasterKey := mkW, groupIdentifier := gidW, title := "Team Chat", avatarPath := "",
    members := [{ userID := 10, role := 1, profileKey := 30, joinedAtRevision := 0 }],
    description := "", announcementsOnly := false, revision := 2,
    disappearingMessagesDuration := 0 }

theorem decryptGroup_member_binding_witness :
    List.Forall₂ (fun (srcm : EncMember) (outm : GroupMember) =>
        testCrypto.decryptUUID 7 srcm.userId = .ok outm.userID ∧
        testCrypto.decryptProfileKey 7 srcm.profileKey outm.userID = .ok outm.profileKey)
      egSoftDescW.members.reduceOption groupOutW.members :=
  (decryptGroup_member_binding testCrypto egSoftDescW mkW mkBytesW 7 gidW rfl rfl rfl).1
    groupOutW (by rfl)

end SignalGroups
